import Mathlib

/-!
Verification of the GFM dataset-processing module (`core/data.py`).

Images are shallowly embedded as functions from pixel coordinates to
rational pixel values (Python floats are modelled by `ℚ`), together with
explicit height/width (and channel) extents.  NumPy's `uint8` casts are
modelled exactly: truncation toward zero followed by reduction modulo
256 (the wrap-around behaviour of a C integer conversion).  OpenCV's
elliptical structuring element and the dilation/erosion operators are
translated from OpenCV's documented semantics: `getStructuringElement`
with `MORPH_ELLIPSE` fills each row of the kernel from an exact integer
ellipse equation, and `dilate`/`erode` take the max/min of the source
over the kernel support with the default centred anchor and the default
border value (`-inf` for dilation, `+inf` for erosion, so out-of-range
samples never contribute).
-/

/-- C-style cast of an integer to `uint8`: reduction modulo 256. -/
def uint8OfInt (v : Int) : Nat := (v % 256).toNat

/-- Truncation of a rational toward zero, as in a C float-to-integer cast. -/
def ratTrunc (q : ℚ) : Int := Int.tdiv q.num q.den

/-- NumPy `np.uint8` applied to a float: truncate toward zero, then wrap
modulo 256 (wrap-around, not saturation). -/
def uint8OfRat (q : ℚ) : Nat := uint8OfInt (ratTrunc q)

/-- Rounding of `sqrt n` to the nearest integer for a natural number `n`;
this models OpenCV's `cvRound(std::sqrt(double r))` in
`getStructuringElement` (the square root of a non-square integer is
irrational, so round-half-to-even ties never occur). -/
def cvRoundSqrt (n : Nat) : Nat :=
  let s := Nat.sqrt n
  if n ≤ s * s + s then s else s + 1

/-- OpenCV `getStructuringElement(MORPH_ELLIPSE, (ksize, ksize))`: entry at
row `i`, column `j` (both meant to lie in `[0, ksize)`).  With
`r = c = ksize / 2` and `dy = i - r`, OpenCV fills row `i` on the column
interval `[max (c - dx) 0, min (c + dx + 1) ksize)` when `|dy| ≤ r`,
where `dx = cvRound (c * sqrt ((r² - dy²) / r²))`, which for a square
kernel (`c = r`) equals `cvRound (sqrt (r² - dy²))`. -/
def ellipseKernel (ksize i j : Nat) : Bool :=
  let r := ksize / 2
  let c := ksize / 2
  let dy : Int := (i : Int) - (r : Int)
  if dy.natAbs ≤ r then
    let dx := cvRoundSqrt (r * r - dy.natAbs * dy.natAbs)
    decide (c - dx ≤ j ∧ j < min (c + dx + 1) ksize)
  else
    false

/-- OpenCV `cv2.dilate(img, kernel, iterations=1)` on a 0/1-valued
`h × w` image with the elliptical kernel and centred anchor: the output
pixel is set iff some in-range sample under the kernel support is set
(the default border value of dilation is `-inf`, so out-of-range samples
are ignored). -/
def dilateB (h w k : Nat) (img : Nat → Nat → Bool) (y x : Nat) : Bool :=
  (List.range k).any fun i => (List.range k).any fun j =>
    ellipseKernel k i j &&
      decide (0 ≤ (y : Int) + i - (k / 2 : Nat)) && decide ((y : Int) + i - (k / 2 : Nat) < h) &&
      decide (0 ≤ (x : Int) + j - (k / 2 : Nat)) && decide ((x : Int) + j - (k / 2 : Nat) < w) &&
      img ((y : Int) + i - (k / 2 : Nat)).toNat ((x : Int) + j - (k / 2 : Nat)).toNat

/-- OpenCV `cv2.erode(img, kernel, iterations=1)` on a 0/1-valued
`h × w` image with the elliptical kernel and centred anchor: the output
pixel is set iff every in-range sample under the kernel support is set
(the default border value of erosion is `+inf`, so out-of-range samples
never lower the minimum). -/
def erodeB (h w k : Nat) (img : Nat → Nat → Bool) (y x : Nat) : Bool :=
  (List.range k).all fun i => (List.range k).all fun j =>
    !(ellipseKernel k i j &&
        decide (0 ≤ (y : Int) + i - (k / 2 : Nat)) && decide ((y : Int) + i - (k / 2 : Nat) < h) &&
        decide (0 ≤ (x : Int) + j - (k / 2 : Nat)) && decide ((x : Int) + j - (k / 2 : Nat) < w)) ||
      img ((y : Int) + i - (k / 2 : Nat)).toNat ((x : Int) + j - (k / 2 : Nat)).toNat

/-- `gen_trimap_with_dilate(alpha, kernel_size)` at pixel `(y, x)`:
`fg_and_unknown = (alpha ≠ 0)`, `fg = (alpha == 255)` as 0/1 float
images, `trimap = erode(fg)*255 + (dilate(fg_and_unknown) - erode(fg))*128`,
cast to `uint8`. -/
def gen_trimap_with_dilate (h w : Nat) (alpha : Nat → Nat → ℚ) (k y x : Nat) : Nat :=
  let fg_and_unknown : Nat → Nat → Bool := fun u v => decide (alpha u v ≠ 0)
  let fg : Nat → Nat → Bool := fun u v => decide (alpha u v = 255)
  let d : Int := if dilateB h w k fg_and_unknown y x then 1 else 0
  let e : Int := if erodeB h w k fg y x then 1 else 0
  uint8OfInt (e * 255 + (d - e) * 128)

/-- `gen_dilate(alpha, kernel_size)` at pixel `(y, x)`: the dilation of the
nonzero-alpha region, scaled by 255 and cast to `uint8`. -/
def gen_dilate (h w : Nat) (alpha : Nat → Nat → ℚ) (k y x : Nat) : Nat :=
  let fg_and_unknown : Nat → Nat → Bool := fun u v => decide (alpha u v ≠ 0)
  uint8OfInt ((if dilateB h w k fg_and_unknown y x then 1 else 0) * 255)

/-- `gen_erosion(alpha, kernel_size)` at pixel `(y, x)`: the erosion of the
exactly-255 region, scaled by 255 and cast to `uint8`. -/
def gen_erosion (h w : Nat) (alpha : Nat → Nat → ℚ) (k y x : Nat) : Nat :=
  let fg : Nat → Nat → Bool := fun u v => decide (alpha u v = 255)
  uint8OfInt ((if erodeB h w k fg y x then 1 else 0) * 255)

/-- The elliptical structuring element always contains its centre (the
anchor of the morphological operations) when the kernel size is positive. -/
lemma ellipseKernel_center (k : Nat) (hk : 0 < k) :
    ellipseKernel k (k / 2) (k / 2) = true := by
  have hr : Nat.sqrt (k / 2 * (k / 2)) = k / 2 := Nat.sqrt_eq (k / 2)
  simp only [ellipseKernel, cvRoundSqrt, sub_self, Int.natAbs_zero]
  rw [if_pos (Nat.zero_le _)]
  simp only [Nat.mul_zero, Nat.sub_zero, hr]
  rw [if_pos (Nat.le_add_right _ _)]
  have h1 : k / 2 < k := Nat.div_lt_self hk (by omega)
  refine decide_eq_true ?_
  omega

/-- If a pixel inside the image survives the erosion of `f`, and `f`
implies `g` pointwise, then the pixel lies in the dilation of `g`
(anti-extensivity of erosion composed with extensivity of dilation, via
the centre of the kernel). -/
lemma erodeB_imp_dilateB (h w k : Nat) (f g : Nat → Nat → Bool) (y x : Nat)
    (hk : 0 < k) (hy : y < h) (hx : x < w)
    (hfg : ∀ u v, f u v = true → g u v = true)
    (he : erodeB h w k f y x = true) : dilateB h w k g y x = true := by
  have ha : k / 2 < k := Nat.div_lt_self hk (by omega)
  have hcen := ellipseKernel_center k hk
  have hyy : (y : Int) + ((k / 2 : Nat) : Int) - ((k / 2 : Nat) : Int) = (y : Int) := by ring
  have hxx : (x : Int) + ((k / 2 : Nat) : Int) - ((k / 2 : Nat) : Int) = (x : Int) := by ring
  have b1 : (0 : Int) ≤ (y : Int) := Int.natCast_nonneg y
  have b2 : ((y : Int)) < (h : Int) := by exact_mod_cast hy
  have b3 : (0 : Int) ≤ (x : Int) := Int.natCast_nonneg x
  have b4 : ((x : Int)) < (w : Int) := by exact_mod_cast hx
  simp only [erodeB, List.all_eq_true, List.mem_range] at he
  have h1 := he (k / 2) ha (k / 2) ha
  rw [hyy, hxx] at h1
  simp only [hcen, b1, b2, b3, b4, decide_eq_true_eq, decide_True, Bool.and_self,
    Bool.and_true, Bool.true_and, Bool.not_true, Bool.false_or, Int.toNat_natCast] at h1
  have hf : f y x = true := h1
  simp only [dilateB, List.any_eq_true, List.mem_range]
  refine ⟨k / 2, ha, k / 2, ha, ?_⟩
  rw [hyy, hxx]
  simp only [hcen, b1, b2, b3, b4, decide_True, Bool.and_true, Bool.true_and,
    Int.toNat_natCast]
  exact hfg y x hf

/-- The foreground indicator (`alpha = 255`) implies the
foreground-or-unknown indicator (`alpha ≠ 0`). -/
lemma fg_imp_fg_and_unknown (alpha : Nat → Nat → ℚ) (u v : Nat)
    (hf : decide (alpha u v = 255) = true) : decide (alpha u v ≠ 0) = true := by
  have h255 : alpha u v = 255 := of_decide_eq_true hf
  refine decide_eq_true ?_
  rw [h255]
  norm_num

lemma uint8OfInt_255 : uint8OfInt 255 = 255 := by decide

lemma uint8OfInt_128 : uint8OfInt 128 = 128 := by decide

lemma uint8OfInt_zero : uint8OfInt 0 = 0 := by decide

/-- C1: for every alpha buffer and every (positive) kernel size, each pixel of
the output of `gen_trimap_with_dilate` is one of 0, 128, 255, and a pixel
valued 255 lies in the eroded exact-255 foreground region. -/
theorem gen_trimap_with_dilate_range_and_fg
    (h w : Nat) (alpha : Nat → Nat → ℚ) (k y x : Nat)
    (hk : 0 < k) (hy : y < h) (hx : x < w) :
    (gen_trimap_with_dilate h w alpha k y x = 0 ∨
      gen_trimap_with_dilate h w alpha k y x = 128 ∨
      gen_trimap_with_dilate h w alpha k y x = 255) ∧
    (gen_trimap_with_dilate h w alpha k y x = 255 →
      erodeB h w k (fun u v => decide (alpha u v = 255)) y x = true) := by
  have key : erodeB h w k (fun u v => decide (alpha u v = 255)) y x = true →
      dilateB h w k (fun u v => decide (alpha u v ≠ 0)) y x = true :=
    erodeB_imp_dilateB h w k _ _ y x hk hy hx (fg_imp_fg_and_unknown alpha)
  simp only [gen_trimap_with_dilate]
  cases he : erodeB h w k (fun u v => decide (alpha u v = 255)) y x
  · cases hd : dilateB h w k (fun u v => decide (alpha u v ≠ 0)) y x
    · simp only [if_true, if_false, Bool.false_eq_true]
      norm_num [uint8OfInt_zero]
    · simp only [if_true, if_false, Bool.false_eq_true]
      norm_num [uint8OfInt_128]
  · have hd := key he
    rw [hd]
    simp only [if_true, if_false]
    norm_num [uint8OfInt_255]

/-- Witness for C1: evaluation at a concrete buffer and kernel size. -/
theorem gen_trimap_with_dilate_range_and_fg_witness :
    (0 < 1 ∧ 0 < 2 ∧ 0 < 2) ∧
    ((gen_trimap_with_dilate 2 2 (fun _ _ => 0) 1 0 0 = 0 ∨
       gen_trimap_with_dilate 2 2 (fun _ _ => 0) 1 0 0 = 128 ∨
       gen_trimap_with_dilate 2 2 (fun _ _ => 0) 1 0 0 = 255) ∧
     (gen_trimap_with_dilate 2 2 (fun _ _ => 0) 1 0 0 = 255 →
       erodeB 2 2 1 (fun u v => decide ((fun _ _ => (0 : ℚ)) u v = 255)) 0 0 = true)) :=
  ⟨⟨by decide, by decide, by decide⟩,
    gen_trimap_with_dilate_range_and_fg 2 2 (fun _ _ => 0) 1 0 0
      (by decide) (by decide) (by decide)⟩

/-- C8: pointwise consistency of the three generators at the same arguments:
the trimap is 255 exactly where `gen_erosion` is 255, and nonzero exactly
where `gen_dilate` is 255. -/
theorem gen_trimap_consistent_generators
    (h w : Nat) (alpha : Nat → Nat → ℚ) (k y x : Nat)
    (hk : 0 < k) (hy : y < h) (hx : x < w) :
    ((gen_trimap_with_dilate h w alpha k y x = 255) ↔
      gen_erosion h w alpha k y x = 255) ∧
    ((gen_trimap_with_dilate h w alpha k y x ≠ 0) ↔
      gen_dilate h w alpha k y x = 255) := by
  have key : erodeB h w k (fun u v => decide (alpha u v = 255)) y x = true →
      dilateB h w k (fun u v => decide (alpha u v ≠ 0)) y x = true :=
    erodeB_imp_dilateB h w k _ _ y x hk hy hx (fg_imp_fg_and_unknown alpha)
  simp only [gen_trimap_with_dilate, gen_erosion, gen_dilate]
  cases he : erodeB h w k (fun u v => decide (alpha u v = 255)) y x
  · cases hd : dilateB h w k (fun u v => decide (alpha u v ≠ 0)) y x
    · simp only [if_true, if_false, Bool.false_eq_true]
      norm_num [uint8OfInt_zero]
    · simp only [if_true, if_false, Bool.false_eq_true]
      norm_num [uint8OfInt_128, uint8OfInt_zero, uint8OfInt_255]
  · have hd := key he
    rw [hd]
    simp only [if_true, if_false]
    norm_num [uint8OfInt_255]

/-- Witness for C8: evaluation at a concrete all-foreground buffer. -/
theorem gen_trimap_consistent_generators_witness :
    (0 < 1 ∧ 0 < 1 ∧ 0 < 1) ∧
    (((gen_trimap_with_dilate 1 1 (fun _ _ => 255) 1 0 0 = 255) ↔
       gen_erosion 1 1 (fun _ _ => 255) 1 0 0 = 255) ∧
     ((gen_trimap_with_dilate 1 1 (fun _ _ => 255) 1 0 0 ≠ 0) ↔
       gen_dilate 1 1 (fun _ _ => 255) 1 0 0 = 255)) :=
  ⟨⟨by decide, by decide, by decide⟩,
    gen_trimap_consistent_generators 1 1 (fun _ _ => 255) 1 0 0
      (by decide) (by decide) (by decide)⟩

/-- A NumPy image buffer: `h × w` spatial extent, `chan = none` for a
2-dimensional (mask-like) array and `chan = some c` for an
`h × w × c` array; `px y x ch` is the pixel value at row `y`, column `x`,
channel `ch` (the channel argument is read at 0 for 2-dimensional
buffers). -/
@[ext]
structure NdBuf where
  h : Nat
  w : Nat
  chan : Option Nat
  px : Nat → Nat → Nat → ℚ

/-- The pseudo-random draws consumed by the pipeline, as explicit streams:
`fl` models the outcomes of `random.random()`, `it` the integer draws
(`random.randint`, `random.choice`, `np.random.randint`), and `gs` the
arrays returned by `np.random.normal`; the indices `fi`, `ii`, `gi` point
at the next unconsumed element of each stream. -/
structure RState where
  fl : Nat → ℚ
  fi : Nat
  it : Nat → Nat
  ii : Nat
  gs : Nat → Nat → Nat → Nat → ℚ
  gi : Nat

/-- Consume one `random.random()` outcome. -/
def drawFloat (st : RState) : ℚ × RState := (st.fl st.fi, { st with fi := st.fi + 1 })

/-- Consume one integer draw. -/
def drawInt (st : RState) : Nat × RState := (st.it st.ii, { st with ii := st.ii + 1 })

/-- Consume one `np.random.normal` array. -/
def drawGauss (st : RState) : (Nat → Nat → Nat → ℚ) × RState :=
  (st.gs st.gi, { st with gi := st.gi + 1 })

/-- The `0.5` threshold of the `random.random() < 0.5` coin flips, written
with explicit numerator and denominator so that comparisons against it
evaluate by kernel reduction. -/
def half : ℚ := ⟨1, 2, by decide, Nat.coprime_one_left 2⟩

lemma half_eq : half = 1 / 2 := by
  rw [half, Rat.mk'_eq_divInt, Rat.divInt_eq_div]
  norm_num

/-- Addition of one noise array to a buffer followed by the `np.uint8`
cast (`np.uint8(img + gauss)`). -/
def noisyBuf (g : Nat → Nat → Nat → ℚ) (b : NdBuf) : NdBuf :=
  ⟨b.h, b.w, b.chan, fun y x c => (uint8OfRat (b.px y x c + g y x c) : ℚ)⟩

/-- `add_guassian_noise(img, fg, bg)`: draw one Gaussian noise array (the
`np.random.normal(mean, sigma, (row, col, ch))` sample), add the same
array to all three buffers, and cast each sum to `uint8`. -/
def add_guassian_noise (img fg bg : NdBuf) (st : RState) :
    (NdBuf × NdBuf × NdBuf) × RState :=
  let g := (drawGauss st).1
  let st1 := (drawGauss st).2
  ((noisyBuf g img, noisyBuf g fg, noisyBuf g bg), st1)

/-- Zero-extent placeholder buffer (used only for the `bg_denoise` access
that Python would make when `fg_denoise` is present but `bg_denoise` is
`None`, a combination the caller never produces). -/
def emptyBuf : NdBuf := ⟨0, 0, none, fun _ _ _ => 0⟩

/-- The body of `generate_composite_rssn` up to and including the `uint8`
cast of the composite, i.e. everything before the noise step.  The
external library calls are parameters of the embedding: `resizeImgFn`
models `resize_img` (scikit-image `resize` against a reference buffer,
scaled by 255) and `blurFn` models `cv2.blur` with a square kernel of
the given size.  The denoise coin is drawn only when `fg_denoise` is
present, matching Python's short-circuit `and`. -/
def rssn_core (resizeImgFn : NdBuf → NdBuf → NdBuf) (blurFn : Nat → NdBuf → NdBuf)
    (fg bg : NdBuf) (mask : Nat → Nat → ℚ)
    (fg_denoise bg_denoise : Option NdBuf) (st : RState) :
    (NdBuf × NdBuf × NdBuf) × RState :=
  let alpha : Nat → Nat → ℚ := fun y x => mask y x / 255
  let bg1 := resizeImgFn fg bg
  let s2 : NdBuf × NdBuf × RState :=
    match fg_denoise with
    | none => (fg, bg1, st)
    | some fgd =>
      let c1 := (drawFloat st).1
      let st1 := (drawFloat st).2
      if c1 < half then (fgd, resizeImgFn fgd (bg_denoise.getD emptyBuf), st1)
      else (fg, bg1, st1)
  let fg2 := s2.1
  let bg2 := s2.2.1
  let stA := s2.2.2
  let c2 := (drawFloat stA).1
  let stB := (drawFloat stA).2
  let s3 : NdBuf × RState :=
    if c2 < half then
      let r := (drawInt stB).1
      let stC := (drawInt stB).2
      let rand_kernel := [20, 30, 40, 50, 60].getD (r % 5) 20
      (blurFn rand_kernel bg2, stC)
    else (bg2, stB)
  let bg3 := s3.1
  let stD := s3.2
  let composite : NdBuf :=
    ⟨fg2.h, fg2.w, fg2.chan, fun y x c =>
      (uint8OfRat (alpha y x * fg2.px y x c + (1 - alpha y x) * bg3.px y x c) : ℚ)⟩
  ((composite, fg2, bg3), stD)

/-- `generate_composite_rssn`: the pre-noise core followed by the optional
Gaussian-noise step (`if random.random() < 0.5`). -/
def generate_composite_rssn (resizeImgFn : NdBuf → NdBuf → NdBuf)
    (blurFn : Nat → NdBuf → NdBuf) (fg bg : NdBuf) (mask : Nat → Nat → ℚ)
    (fg_denoise bg_denoise : Option NdBuf) (st : RState) :
    (NdBuf × NdBuf × NdBuf) × RState :=
  let core := rssn_core resizeImgFn blurFn fg bg mask fg_denoise bg_denoise st
  let c3 := (drawFloat core.2).1
  let st1 := (drawFloat core.2).2
  if c3 < half then add_guassian_noise core.1.1 core.1.2.1 core.1.2.2 st1
  else (core.1, st1)

/-- `generate_composite_coco(fg, bg, mask)`: resize the background to the
foreground's reference, blend with `alpha = mask/255`, cast the composite
to `uint8`, and return `(composite, fg, resized bg)`.  The function makes
no call into the pseudo-random state. -/
def generate_composite_coco (resizeImgFn : NdBuf → NdBuf → NdBuf)
    (fg bg : NdBuf) (mask : Nat → Nat → ℚ) : NdBuf × NdBuf × NdBuf :=
  let alpha : Nat → Nat → ℚ := fun y x => mask y x / 255
  let bg1 := resizeImgFn fg bg
  (⟨fg.h, fg.w, fg.chan, fun y x c =>
     (uint8OfRat (alpha y x * fg.px y x c + (1 - alpha y x) * bg1.px y x c) : ℚ)⟩,
   fg, bg1)

lemma uint8OfRat_natCast (n : Nat) (hn : n < 256) : uint8OfRat (n : ℚ) = n := by
  rw [uint8OfRat, ratTrunc, Rat.num_natCast, Rat.den_natCast, uint8OfInt]
  have ht : Int.tdiv (n : Int) ((1 : Nat) : Int) = (n : Int) := by
    simp [Int.tdiv]
  rw [ht]
  omega

/-- C3: the coco composite is the `uint8` cast of the alpha blend
`alpha*fg + (1-alpha)*bg` with `alpha = mask/255` against the resized
background; with an all-255 mask and a `uint8`-valued foreground the
composite equals the foreground buffer, and with an all-0 mask and a
`uint8`-valued resized background of the foreground's shape it equals
the resized background buffer. -/
theorem generate_composite_coco_blend (resizeImgFn : NdBuf → NdBuf → NdBuf)
    (fg bg : NdBuf) (mask : Nat → Nat → ℚ) :
    (∀ y x c, (generate_composite_coco resizeImgFn fg bg mask).1.px y x c =
       (uint8OfRat (mask y x / 255 * fg.px y x c +
         (1 - mask y x / 255) * (resizeImgFn fg bg).px y x c) : ℚ)) ∧
    ((∀ y x, mask y x = 255) →
      (∀ y x c, ∃ n : Nat, n < 256 ∧ fg.px y x c = (n : ℚ)) →
      (generate_composite_coco resizeImgFn fg bg mask).1 = fg) ∧
    ((∀ y x, mask y x = 0) →
      (∀ y x c, ∃ n : Nat, n < 256 ∧ (resizeImgFn fg bg).px y x c = (n : ℚ)) →
      (resizeImgFn fg bg).h = fg.h → (resizeImgFn fg bg).w = fg.w →
      (resizeImgFn fg bg).chan = fg.chan →
      (generate_composite_coco resizeImgFn fg bg mask).1 = resizeImgFn fg bg) := by
  refine ⟨fun y x c => rfl, ?_, ?_⟩
  · intro hm hfg
    have hpx : ∀ y x c,
        (uint8OfRat (mask y x / 255 * fg.px y x c +
          (1 - mask y x / 255) * (resizeImgFn fg bg).px y x c) : ℚ) = fg.px y x c := by
      intro y x c
      obtain ⟨n, hn, hv⟩ := hfg y x c
      rw [hm y x, hv]
      norm_num
      rw [uint8OfRat_natCast n hn]
    have hfun : (fun y x c => (uint8OfRat (mask y x / 255 * fg.px y x c +
        (1 - mask y x / 255) * (resizeImgFn fg bg).px y x c) : ℚ)) = fg.px := by
      funext y x c
      exact hpx y x c
    show NdBuf.mk fg.h fg.w fg.chan _ = fg
    rw [hfun]
  · intro hm hbg hh hw hc
    have hpx : ∀ y x c,
        (uint8OfRat (mask y x / 255 * fg.px y x c +
          (1 - mask y x / 255) * (resizeImgFn fg bg).px y x c) : ℚ) =
          (resizeImgFn fg bg).px y x c := by
      intro y x c
      obtain ⟨n, hn, hv⟩ := hbg y x c
      rw [hm y x, hv]
      norm_num
      rw [uint8OfRat_natCast n hn]
    have hfun : (fun y x c => (uint8OfRat (mask y x / 255 * fg.px y x c +
        (1 - mask y x / 255) * (resizeImgFn fg bg).px y x c) : ℚ)) =
        (resizeImgFn fg bg).px := by
      funext y x c
      exact hpx y x c
    show NdBuf.mk fg.h fg.w fg.chan _ = resizeImgFn fg bg
    rw [hfun, ← hh, ← hw, ← hc]

/-- Identity stand-in for `resize_img` used in concrete witnesses. -/
def idResize : NdBuf → NdBuf → NdBuf := fun _ b => b

/-- Identity stand-in for `cv2.blur` used in concrete witnesses. -/
def idBlur : Nat → NdBuf → NdBuf := fun _ b => b

/-- A 1×1×1 foreground buffer with constant value 0. -/
def fgSample : NdBuf := ⟨1, 1, some 1, fun _ _ _ => 0⟩

/-- A 1×1×1 background buffer with constant value 7. -/
def bgSample : NdBuf := ⟨1, 1, some 1, fun _ _ _ => 7⟩

/-- The all-zero mask. -/
def maskZero : Nat → Nat → ℚ := fun _ _ => 0

/-- A random stream whose coin flips all read 0 (every branch fires). -/
def stCoinsZero : RState := ⟨fun _ => 0, 0, fun _ => 0, 0, fun _ _ _ _ => 100, 0⟩

/-- A random stream whose coin flips all read 1 (no branch fires). -/
def stCoinsOne : RState := ⟨fun _ => 1, 0, fun _ => 0, 0, fun _ _ _ _ => 100, 0⟩

/-- A random stream whose first coin reads 1 and later coins read 0: for an
rssn run without denoise buffers, the blur branch is skipped and the
noise branch fires. -/
def stNoiseOnly : RState :=
  ⟨fun n => if n = 0 then 1 else 0, 0, fun _ => 0, 0, fun _ _ _ _ => 100, 0⟩

/-- Witness for C3: with an all-255 mask the coco composite equals the
foreground buffer at a concrete input. -/
theorem generate_composite_coco_blend_witness :
    (∀ y x : Nat, (fun _ _ => (255 : ℚ)) y x = 255) ∧
    (generate_composite_coco idResize (NdBuf.mk 1 1 (some 1) (fun _ _ _ => 7))
        bgSample (fun _ _ => 255)).1 = NdBuf.mk 1 1 (some 1) (fun _ _ _ => 7) :=
  ⟨fun _ _ => rfl,
    (generate_composite_coco_blend idResize (NdBuf.mk 1 1 (some 1) (fun _ _ _ => 7))
        bgSample (fun _ _ => 255)).2.1 (fun _ _ => rfl)
      (fun _ _ _ => ⟨7, by omega, by norm_num⟩)⟩

/-- C9: `generate_composite_coco` consumes no randomness — it takes no
pseudo-random state and two calls on equal inputs return equal triples
— unlike `generate_composite_rssn`, for which two runs on equal image
inputs but different streams can return different composites. -/
theorem generate_composite_coco_deterministic :
    (∀ (rf : NdBuf → NdBuf → NdBuf) (fg1 fg2 bg1 bg2 : NdBuf)
        (m1 m2 : Nat → Nat → ℚ), fg1 = fg2 → bg1 = bg2 → m1 = m2 →
        generate_composite_coco rf fg1 bg1 m1 = generate_composite_coco rf fg2 bg2 m2) ∧
    (∃ (rf : NdBuf → NdBuf → NdBuf) (bf : Nat → NdBuf → NdBuf) (fg bg : NdBuf)
        (m : Nat → Nat → ℚ) (st1 st2 : RState),
        (generate_composite_rssn rf bf fg bg m none none st1).1.1.px 0 0 0 ≠
          (generate_composite_rssn rf bf fg bg m none none st2).1.1.px 0 0 0) := by
  constructor
  · intro rf fg1 fg2 bg1 bg2 m1 m2 h1 h2 h3
    rw [h1, h2, h3]
  · refine ⟨idResize, idBlur, fgSample, bgSample, maskZero,
      stCoinsOne, stNoiseOnly, ?_⟩
    have hn1 : ¬((1 : ℚ) < half) := by rw [half_eq]; norm_num
    have hp0 : (0 : ℚ) < half := by rw [half_eq]; norm_num
    simp only [generate_composite_rssn, rssn_core, drawFloat, drawGauss, drawInt,
      add_guassian_noise, noisyBuf, idResize, idBlur, fgSample, bgSample, maskZero,
      stCoinsOne, stNoiseOnly]
    norm_num [hn1, hp0]
    have h7 : (7 : ℚ) = ((7 : Nat) : ℚ) := by norm_num
    rw [h7, uint8OfRat_natCast 7 (by omega)]
    have harg2 : (((7 : Nat) : ℚ)) + 100 = ((107 : Nat) : ℚ) := by push_cast; norm_num
    rw [harg2, uint8OfRat_natCast 107 (by omega)]
    omega

/-- Witness for C9: the determinism half applied at concrete equal inputs. -/
theorem generate_composite_coco_deterministic_witness :
    (fgSample = fgSample ∧ bgSample = bgSample ∧ maskZero = maskZero) ∧
    generate_composite_coco idResize fgSample bgSample maskZero =
      generate_composite_coco idResize fgSample bgSample maskZero :=
  ⟨⟨rfl, rfl, rfl⟩,
    generate_composite_coco_deterministic.1 idResize fgSample fgSample
      bgSample bgSample maskZero maskZero rfl rfl rfl⟩

/-- C6: when the Gaussian-noise step of the rssn variant fires, one noise
array is drawn and that same array is added to the composite, foreground
and background, each sum cast to `uint8`; the cast wraps modulo 256
(`uint8OfRat 300 = 44`, `uint8OfRat (-5) = 251`) instead of saturating. -/
theorem generate_composite_rssn_noise_shared
    (rf : NdBuf → NdBuf → NdBuf) (bf : Nat → NdBuf → NdBuf) (fg bg : NdBuf)
    (m : Nat → Nat → ℚ) (fgd bgd : Option NdBuf) (st : RState)
    (hfire : (drawFloat (rssn_core rf bf fg bg m fgd bgd st).2).1 < half) :
    (∃ g : Nat → Nat → Nat → ℚ,
      (generate_composite_rssn rf bf fg bg m fgd bgd st).1 =
        (noisyBuf g (rssn_core rf bf fg bg m fgd bgd st).1.1,
         noisyBuf g (rssn_core rf bf fg bg m fgd bgd st).1.2.1,
         noisyBuf g (rssn_core rf bf fg bg m fgd bgd st).1.2.2)) ∧
    uint8OfRat 300 = 44 ∧ uint8OfRat (-5) = 251 := by
  refine ⟨⟨(drawGauss (drawFloat (rssn_core rf bf fg bg m fgd bgd st).2).2).1, ?_⟩,
    by decide, by decide⟩
  simp only [generate_composite_rssn]
  rw [if_pos hfire]
  rfl

/-- Witness for C6: a concrete run whose noise coin fires. -/
theorem generate_composite_rssn_noise_shared_witness :
    ((drawFloat (rssn_core idResize idBlur fgSample bgSample maskZero
        none none stCoinsZero).2).1 < half) ∧
    ((∃ g : Nat → Nat → Nat → ℚ,
       (generate_composite_rssn idResize idBlur fgSample bgSample maskZero
           none none stCoinsZero).1 =
         (noisyBuf g (rssn_core idResize idBlur fgSample bgSample maskZero
             none none stCoinsZero).1.1,
          noisyBuf g (rssn_core idResize idBlur fgSample bgSample maskZero
             none none stCoinsZero).1.2.1,
          noisyBuf g (rssn_core idResize idBlur fgSample bgSample maskZero
             none none stCoinsZero).1.2.2)) ∧
     uint8OfRat 300 = 44 ∧ uint8OfRat (-5) = 251) :=
  ⟨by decide,
    generate_composite_rssn_noise_shared idResize idBlur fgSample bgSample
      maskZero none none stCoinsZero (by decide)⟩

/-- Length of the Python slice `a[:stop]` over `n` rows, including the
negative-stop convention: `a[:-k]` keeps all but the last `k` rows, and
the result clamps at zero. -/
def pyHeadSlice (n : Nat) (stop : Int) : Nat :=
  if stop < 0 then (max 0 ((n : Int) + stop)).toNat else min stop.toNat n

/-- `item[y0:y0+cs, x0:x0+cs]`: Python slice semantics with a nonnegative
start (extents clamp to the array bounds). -/
def cropBuf (y0 x0 cs : Nat) (b : NdBuf) : NdBuf :=
  ⟨min (y0 + cs) b.h - y0, min (x0 + cs) b.w - x0, b.chan,
    fun y x c => b.px (y0 + y) (x0 + x) c⟩

/-- `cv2.flip(item, 1)`: horizontal mirror. -/
def flipBuf (b : NdBuf) : NdBuf :=
  ⟨b.h, b.w, b.chan, fun y x c => b.px y (b.w - 1 - x) c⟩

/-- Clamp an integer sampling index into `[0, n-1]`. -/
def clampIdx (n : Nat) (i : Int) : Nat := (max 0 (min i ((n : Int) - 1))).toNat

/-- One sample of `cv2.resize(item, (rs, rs), interpolation=cv2.INTER_LINEAR)`:
destination pixel `(y, x)` maps back to the source coordinate
`(x + 1/2) * (w/rs) - 1/2` (likewise for rows), and the four neighbouring
source pixels are blended with the fractional weights, indices clamped at
the borders (exact rational bilinear interpolation; OpenCV's fixed-point
coefficient rounding is not reproduced, no claim depends on resampled
values). -/
def bilinearAt (b : NdBuf) (rs y x c : Nat) : ℚ :=
  let sy : ℚ := (b.h : ℚ) / (rs : ℚ)
  let sx : ℚ := (b.w : ℚ) / (rs : ℚ)
  let fy : ℚ := ((y : ℚ) + 1 / 2) * sy - 1 / 2
  let fx : ℚ := ((x : ℚ) + 1 / 2) * sx - 1 / 2
  let y0 : Int := ⌊fy⌋
  let x0 : Int := ⌊fx⌋
  let dy : ℚ := fy - (y0 : ℚ)
  let dx : ℚ := fx - (x0 : ℚ)
  (1 - dy) * (1 - dx) * b.px (clampIdx b.h y0) (clampIdx b.w x0) c +
    (1 - dy) * dx * b.px (clampIdx b.h y0) (clampIdx b.w (x0 + 1)) c +
    dy * (1 - dx) * b.px (clampIdx b.h (y0 + 1)) (clampIdx b.w x0) c +
    dy * dx * b.px (clampIdx b.h (y0 + 1)) (clampIdx b.w (x0 + 1)) c

/-- `cv2.resize(item, (rs, rs), interpolation=cv2.INTER_LINEAR)`: OpenCV
asserts that the source is nonempty, then produces an `rs × rs` output
with the channel count preserved. -/
def cv2resizeLinear (rs : Nat) (b : NdBuf) : Option NdBuf :=
  if b.h = 0 ∨ b.w = 0 then none
  else some ⟨rs, rs, b.chan, fun y x c => bilinearAt b rs y x c⟩

/-- The body of `MattingTransform.__call__`'s per-buffer loop: crop at
the common origin and size, optionally flip, resize. -/
def transformOne (cy cx cs : Nat) (fl : Bool) (rs : Nat) (b : NdBuf) : Option NdBuf :=
  cv2resizeLinear rs (if fl then flipBuf (cropBuf cy cx cs b) else cropBuf cy cx cs b)

/-- Option-valued map over a buffer list: the whole list maps successfully
or the first failure aborts (a propagating Python exception). -/
def mapOpt (f : NdBuf → Option NdBuf) : List NdBuf → Option (List NdBuf)
  | [] => some []
  | b :: rest =>
    match f b, mapOpt f rest with
    | some b1, some rest1 => some (b1 :: rest1)
    | _, _ => none

/-- Row-major list of the coordinates of an `h' × w'` region satisfying
`pred`, as `(row, column)` pairs — the order in which `np.where` reports
matches on a C-ordered array. -/
def coordsWhere (h' w' : Nat) (pred : Nat → Nat → Bool) : List (Nat × Nat) :=
  (List.range h').flatMap fun y =>
    ((List.range w').filter fun x => pred y x).map fun x => (y, x)

/-- `crop_size = CROP_SIZE[rand_ind] if CROP_SIZE[rand_ind] < min(h, w)
else 320`. -/
def chooseCropSize (crops : List Nat) (idx h w : Nat) : Nat :=
  if crops.getD idx 0 < min h w then crops.getD idx 0 else 320

/-- The crop-size, crop-origin and flip selection of
`MattingTransform.__call__`, up to the start of the per-buffer loop:
draw the crop-size index (`random.randint(0, len(CROP_SIZE)-1)`, which
raises on an empty list), slice the search region
`argv[1][:h-crop_size, :w-crop_size]` (`h`, `w` from `argv[0]`), search
for transition pixels (`== 128`) with probability 1/2 and otherwise for
any pixel (`> -100`), fall back to the unbiased search when the chosen
search is empty, abort when the final target list is still empty (the
`np.random.randint(0)` `ValueError`), then draw the crop origin and the
flip coin.  Returns `((cropy, cropx, crop_size, flip_flag), state)`. -/
def transformPrelude (crops : List Nat) (a0 a1 : NdBuf) (st : RState) :
    Option ((Nat × Nat × Nat × Bool) × RState) :=
  if crops.length = 0 then none
  else
    let r0 := (drawInt st).1
    let st1 := (drawInt st).2
    let cs := chooseCropSize crops (r0 % crops.length) a0.h a0.w
    let h1 := pyHeadSlice a1.h ((a0.h : Int) - (cs : Int))
    let w1 := pyHeadSlice a1.w ((a0.w : Int) - (cs : Int))
    let c1 := (drawFloat st1).1
    let st2 := (drawFloat st1).2
    let target0 :=
      if c1 < half then coordsWhere h1 w1 (fun y x => decide (a1.px y x 0 = 128))
      else coordsWhere h1 w1 (fun y x => decide ((-100 : ℚ) < a1.px y x 0))
    let target :=
      if target0.length = 0 then
        coordsWhere h1 w1 (fun y x => decide ((-100 : ℚ) < a1.px y x 0))
      else target0
    if target.length = 0 then none
    else
      let r1 := (drawInt st2).1
      let st3 := (drawInt st2).2
      let cyx := target.getD (r1 % target.length) (0, 0)
      let c2 := (drawFloat st3).1
      let st4 := (drawFloat st3).2
      some ((cyx.1, cyx.2, cs, decide (c2 < half)), st4)

/-- `MattingTransform.__call__(*argv)`: requires the two leading buffers
(`argv[0]` is `ori`, `argv[1]` is the search buffer the source names
`trimap`), runs the selection, then crops, flips and resizes every
supplied buffer with the same origin, crop size and flip decision. -/
def mattingTransform (crops : List Nat) (rs : Nat) (argv : List NdBuf)
    (st : RState) : Option (List NdBuf × RState) :=
  match argv with
  | a0 :: a1 :: _ =>
    match transformPrelude crops a0 a1 st with
    | none => none
    | some ((cy, cx, cs, fl), st1) =>
      match mapOpt (transformOne cy cx cs fl rs) argv with
      | none => none
      | some outs => some (outs, st1)
  | _ => none

lemma cv2resizeLinear_dims (rs : Nat) (b b1 : NdBuf)
    (h : cv2resizeLinear rs b = some b1) : b1.h = rs ∧ b1.w = rs := by
  by_cases hc : b.h = 0 ∨ b.w = 0
  · rw [cv2resizeLinear, if_pos hc] at h
    exact absurd h (by simp)
  · rw [cv2resizeLinear, if_neg hc] at h
    injection h with h1
    rw [← h1]
    exact ⟨rfl, rfl⟩

lemma transformOne_dims (cy cx cs : Nat) (fl : Bool) (rs : Nat) (b b1 : NdBuf)
    (h : transformOne cy cx cs fl rs b = some b1) : b1.h = rs ∧ b1.w = rs :=
  cv2resizeLinear_dims rs _ b1 h

lemma mapOpt_eq_some (f : NdBuf → Option NdBuf) (l : List NdBuf) :
    ∀ outs, mapOpt f l = some outs →
      outs.length = l.length ∧ ∀ b ∈ outs, ∃ b0, b0 ∈ l ∧ f b0 = some b := by
  induction l with
  | nil =>
    intro outs h
    simp only [mapOpt] at h
    injection h with h1
    subst h1
    exact ⟨rfl, by simp⟩
  | cons b rest ih =>
    intro outs h
    simp only [mapOpt] at h
    cases hf : f b with
    | none => rw [hf] at h; exact absurd h (by simp)
    | some b1 =>
      rw [hf] at h
      cases hrest : mapOpt f rest with
      | none => rw [hrest] at h; exact absurd h (by simp)
      | some rest1 =>
        rw [hrest] at h
        injection h with h1
        subst h1
        obtain ⟨hl, hm⟩ := ih rest1 hrest
        refine ⟨by simp [hl], ?_⟩
        intro c hc
        rcases List.mem_cons.mp hc with hc1 | hc2
        · refine ⟨b, List.mem_cons_self b rest, ?_⟩
          rw [← hc1] at hf
          exact hf
        · obtain ⟨b0, hb0, hfb0⟩ := hm c hc2
          exact ⟨b0, List.mem_cons_of_mem b hb0, hfb0⟩

/-- C4: a successful `MattingTransform.__call__` maps every supplied buffer
through one shared crop origin, crop size and flip decision, and every
returned buffer is exactly `resize_size × resize_size`. -/
theorem mattingTransform_aligned (crops : List Nat) (rs : Nat)
    (argv : List NdBuf) (st : RState) (p : List NdBuf × RState)
    (hrun : mattingTransform crops rs argv st = some p) :
    (∀ b ∈ p.1, b.h = rs ∧ b.w = rs) ∧
    p.1.length = argv.length ∧
    ∃ cy cx cs fl, mapOpt (transformOne cy cx cs fl rs) argv = some p.1 := by
  cases argv with
  | nil => exact absurd hrun (by simp [mattingTransform])
  | cons a0 rest =>
    cases rest with
    | nil => exact absurd hrun (by simp [mattingTransform])
    | cons a1 rest2 =>
      simp only [mattingTransform] at hrun
      cases htp : transformPrelude crops a0 a1 st with
      | none => rw [htp] at hrun; exact absurd hrun (by simp)
      | some q =>
        obtain ⟨⟨cy, cx, cs, fl⟩, st1⟩ := q
        rw [htp] at hrun
        dsimp only at hrun
        cases hmo : mapOpt (transformOne cy cx cs fl rs) (a0 :: a1 :: rest2) with
        | none =>
          rw [hmo] at hrun
          exact absurd hrun (by simp)
        | some outs =>
          rw [hmo] at hrun
          dsimp only at hrun
          injection hrun with h1
          subst h1
          obtain ⟨hlen, hmem⟩ := mapOpt_eq_some _ _ outs hmo
          refine ⟨?_, hlen, cy, cx, cs, fl, hmo⟩
          intro b hb
          obtain ⟨b0, _, hfb0⟩ := hmem b hb
          exact transformOne_dims cy cx cs fl rs b0 b hfb0

/-- A 3×3×3 image buffer used in concrete transform runs. -/
def oriSample : NdBuf := ⟨3, 3, some 3, fun _ _ _ => 0⟩

/-- A 3×3 single-channel search buffer used in concrete transform runs. -/
def triSample : NdBuf := ⟨3, 3, none, fun _ _ _ => 0⟩

/-- Witness for C4: a concrete successful transform run whose outputs are
all `resize_size × resize_size`. -/
theorem mattingTransform_aligned_witness :
    ∃ p, mattingTransform [1] 1 [oriSample, triSample] stCoinsOne = some p ∧
      ∀ b ∈ p.1, b.h = 1 ∧ b.w = 1 := by
  have hs : (mattingTransform [1] 1 [oriSample, triSample] stCoinsOne).isSome = true := by
    decide
  rcases Option.isSome_iff_exists.mp hs with ⟨p, hp⟩
  exact ⟨p, hp,
    (mattingTransform_aligned [1] 1 [oriSample, triSample] stCoinsOne p hp).1⟩

lemma coordsWhere_ne_nil (h1 w1 : Nat) (pred : Nat → Nat → Bool)
    (hh : 0 < h1) (hw : 0 < w1) (hp : pred 0 0 = true) :
    coordsWhere h1 w1 pred ≠ [] := by
  intro hc
  have h0 : (0, 0) ∈ coordsWhere h1 w1 pred := by
    simp only [coordsWhere, List.mem_flatMap, List.mem_map, List.mem_filter,
      List.mem_range]
    exact ⟨0, hh, 0, ⟨hw, hp⟩, rfl⟩
  rw [hc] at h0
  exact absurd h0 (List.not_mem_nil _)

lemma ite_length_ne (A B : List (Nat × Nat)) (c : Prop) [Decidable c]
    (hB : B ≠ []) :
    (if (if c then A else B).length = 0 then B else (if c then A else B)).length ≠ 0 := by
  have hBl : B.length ≠ 0 := fun hb => hB (List.length_eq_zero.mp hb)
  by_cases hc : c
  · simp only [if_pos hc]
    by_cases hA : A.length = 0
    · rw [if_pos hA]
      exact hBl
    · rw [if_neg hA]
      exact hA
  · simp only [if_neg hc]
    by_cases hB2 : B.length = 0
    · rw [if_pos hB2]
      exact hBl
    · rw [if_neg hB2]
      exact hB2

/-- C2 (amended): the crop-origin selection of `MattingTransform.__call__`
always produces an origin — the biased search falling back to the
unbiased one — whenever the sliced search region
`argv[1][:h-crop_size, :w-crop_size]` is nonempty (the search buffer
being `uint8`-valued, every pixel passes the `> -100` fallback test).
The region-nonemptiness hypotheses cover every reachable success case,
including the Python negative-slice ones with `h < crop_size < 2h`. -/
theorem transformPrelude_total (crops : List Nat) (a0 a1 : NdBuf) (st : RState)
    (hne : crops ≠ [])
    (hnn : ∀ y x, 0 ≤ a1.px y x 0)
    (hH : 0 < pyHeadSlice a1.h ((a0.h : Int) -
      (chooseCropSize crops ((drawInt st).1 % crops.length) a0.h a0.w : Int)))
    (hW : 0 < pyHeadSlice a1.w ((a0.w : Int) -
      (chooseCropSize crops ((drawInt st).1 % crops.length) a0.h a0.w : Int))) :
    ∃ r st', transformPrelude crops a0 a1 st = some (r, st') := by
  have hlen : ¬(crops.length = 0) := by
    intro h0
    exact hne (List.length_eq_zero.mp h0)
  set cs := chooseCropSize crops ((drawInt st).1 % crops.length) a0.h a0.w with hcs
  have hAllne : coordsWhere (pyHeadSlice a1.h ((a0.h : Int) - (cs : Int)))
      (pyHeadSlice a1.w ((a0.w : Int) - (cs : Int)))
      (fun y x => decide ((-100 : ℚ) < a1.px y x 0)) ≠ [] := by
    refine coordsWhere_ne_nil _ _ _ hH hW ?_
    refine decide_eq_true ?_
    calc ((-100 : ℚ)) < 0 := by norm_num
    _ ≤ a1.px 0 0 0 := hnn 0 0
  simp only [transformPrelude]
  rw [if_neg hlen]
  simp only [if_neg (ite_length_ne _ _ _ hAllne)]
  exact ⟨_, _, rfl⟩

/-- Counterexample to C2 as stated: on a 32×32 input with the configured
crop sizes all at least the image extent, the fallback crop size 320
empties the sliced search region `trimap[:h-320, :w-320]`, both searches
return no pixels, and `np.random.randint(0)` raises — the selection does
not produce a crop origin. -/
theorem mattingTransform_selection_fails_cex :
    mattingTransform [640] 320
      [NdBuf.mk 32 32 (some 3) (fun _ _ _ => 0),
       NdBuf.mk 32 32 none (fun _ _ _ => 0)]
      stCoinsOne = none := rfl

/-- A 256×256×3 image buffer: with the configured crop sizes all at least
640 the fallback crop size is 320, so the sliced search region is the
negative-slice case `trimap[:-64, :-64]`, nonempty with 192 rows. -/
def bigOriSample : NdBuf := ⟨256, 256, some 3, fun _ _ _ => 0⟩

/-- The matching 256×256 single-channel search buffer. -/
def bigTriSample : NdBuf := ⟨256, 256, none, fun _ _ _ => 0⟩

/-- Witness for the amended C2: a concrete selection that succeeds in the
negative-slice regime (`h = 256 < crop_size = 320 < 2h`). -/
theorem transformPrelude_total_witness :
    (([640] : List Nat) ≠ [] ∧ (∀ y x, 0 ≤ bigTriSample.px y x 0) ∧
      0 < pyHeadSlice bigTriSample.h ((bigOriSample.h : Int) -
        (chooseCropSize [640] ((drawInt stCoinsOne).1 % [640].length)
          bigOriSample.h bigOriSample.w : Int)) ∧
      0 < pyHeadSlice bigTriSample.w ((bigOriSample.w : Int) -
        (chooseCropSize [640] ((drawInt stCoinsOne).1 % [640].length)
          bigOriSample.h bigOriSample.w : Int))) ∧
    ∃ r st', transformPrelude [640] bigOriSample bigTriSample stCoinsOne =
      some (r, st') :=
  ⟨⟨by decide, fun _ _ => le_refl 0, by decide, by decide⟩,
    transformPrelude_total [640] bigOriSample bigTriSample stCoinsOne (by decide)
      (fun _ _ => le_refl 0) (by decide) (by decide)⟩

/-- C5 (amended): the crop size is the drawn element of `CROP_SIZE` when
that element is strictly smaller than the smaller spatial dimension, and
the fallback 320 is used exactly when the element is greater than or
equal to it. -/
theorem chooseCropSize_spec (crops : List Nat) (idx h w : Nat) :
    (crops.getD idx 0 < min h w → chooseCropSize crops idx h w = crops.getD idx 0) ∧
    (min h w ≤ crops.getD idx 0 → chooseCropSize crops idx h w = 320) := by
  constructor
  · intro h1
    rw [chooseCropSize, if_pos h1]
  · intro h1
    rw [chooseCropSize, if_neg (by omega)]

/-- Counterexample to C5 as stated: with the drawn element equal to the
smaller spatial dimension — so not larger than the image — the code
still falls back to 320 rather than using the element. -/
theorem chooseCropSize_boundary_cex :
    chooseCropSize [100] 0 100 100 = 320 ∧ ¬(100 > min 100 100) ∧ (100 : Nat) ≠ 320 := by
  decide

/-- Witness for the amended C5: both branches applied at concrete inputs. -/
theorem chooseCropSize_spec_witness :
    ((64 : Nat) < min 100 100 ∧ chooseCropSize [64] 0 100 100 = 64) ∧
    (min 100 100 ≤ (500 : Nat) ∧ chooseCropSize [500] 0 100 100 = 320) :=
  ⟨⟨by decide, (chooseCropSize_spec [64] 0 100 100).1 (by decide)⟩,
    ⟨by decide, (chooseCropSize_spec [500] 0 100 100).2 (by decide)⟩⟩

/-- `trim_img(img)`: keep only the first channel when the mask was loaded
with more than two dimensions, yielding a 2-dimensional buffer. -/
def trim_img (b : NdBuf) : NdBuf :=
  match b.chan with
  | some _ => ⟨b.h, b.w, none, fun y x _ => b.px y x 0⟩
  | none => b

/-- `process_fgbg(ori, mask, is_fg, fgbg_path)`: when a path was supplied
the loaded layer is used as-is; otherwise the layer is synthesized as
`ori * mask/255` (foreground) or `ori * (1 - mask/255)` (background),
the mask normalized to `[0, 1]` and broadcast over the channels. -/
def process_fgbg (ori mask : NdBuf) (fgFlag : Bool) (fgbg : Option NdBuf) : NdBuf :=
  match fgbg with
  | some img => img
  | none =>
    ⟨ori.h, ori.w, ori.chan, fun y x c =>
      if fgFlag then ori.px y x c * (mask.px y x 0 / 255)
      else ori.px y x c * (1 - mask.px y x 0 / 255)⟩

/-- A channel-first tensor of shape `c × h × w`; `px ch y x`. -/
structure Tensor3 where
  c : Nat
  h : Nat
  w : Nat
  px : Nat → Nat → Nat → ℚ

/-- The tensor conversion at the end of `__getitem__`: a 2-dimensional
buffer becomes a `1 × H × W` single-channel tensor
(`item[np.newaxis, :, :]`), and a 3-dimensional buffer is permuted from
`H × W × C` to `C × H × W` (`permute(2, 0, 1)`). -/
def toTensor (b : NdBuf) : Tensor3 :=
  match b.chan with
  | none => ⟨1, b.h, b.w, fun _ y x => b.px y x 0⟩
  | some c => ⟨c, b.h, b.w, fun ch y x => b.px y x ch⟩

/-- The conversion loop plus the destructuring
`[ori, mask, fg, bg, trimap, dilation, erosion] = argv_transform`:
succeeds exactly when the transform returned seven buffers, binding them
positionally after the channel-first conversion. -/
def tensorize (outs : List NdBuf) :
    Option (Tensor3 × Tensor3 × Tensor3 × Tensor3 × Tensor3 × Tensor3 × Tensor3) :=
  if outs.length = 7 then
    some (toTensor (outs.getD 0 emptyBuf), toTensor (outs.getD 1 emptyBuf),
      toTensor (outs.getD 2 emptyBuf), toTensor (outs.getD 3 emptyBuf),
      toTensor (outs.getD 4 emptyBuf), toTensor (outs.getD 5 emptyBuf),
      toTensor (outs.getD 6 emptyBuf))
  else none

/-- The fields `MattingDataset.__init__` stores from its arguments: the
sample path tuples produced by `generate_paths_for_dataset` and the
configuration flags (the logging handle performs I/O only, and the
transform object together with its crop/resize configuration appears as
explicit parameters of `MattingDataset_getitem`). -/
structure MattingDatasetS where
  samples : List (List String)
  bg_choice : String
  backbone : String
  fg_cf : Bool
  rssn_denoise : Bool

/-- `MattingDataset.__len__`: the number of samples. -/
def MattingDataset_len (d : MattingDatasetS) : Nat := d.samples.length

/-- A conditionally required path: `samples[index][k] if cond else None`.
The outer `none` is Python's `IndexError` when the tuple is too short,
the inner `Option` is the `None` handed to `process_fgbg`. -/
def selPath (cond : Bool) (e : Option String) : Option (Option String) :=
  if cond then e.map some else some none

/-- `MattingDataset.__getitem__` up to and including the crop/flip/resize
transform: select the sample paths according to the configuration, load
(`loadFn` models `np.array(Image.open(...))`) and synthesize the layer
buffers, composite for the hd/coco background modes, draw
`kernel_size = random.randint(25, 35)`, generate the trimap, dilation
and erosion masks online, and run `MattingTransform` on the seven
buffers.  Fails (`none`) where Python raises: out-of-range sample index,
missing mandatory path, or a failed transform. -/
def getitem_pipeline (loadFn : String → NdBuf)
    (resizeImgFn : NdBuf → NdBuf → NdBuf) (blurFn : Nat → NdBuf → NdBuf)
    (crops : List Nat) (rs : Nat) (d : MattingDatasetS) (index : Nat)
    (st : RState) : Option (List NdBuf × RState) :=
  match d.samples.get? index with
  | none => none
  | some s =>
    match s.get? 0, s.get? 1 with
    | some ori_path, some mask_path =>
      (selPath d.fg_cf (s.get? 2)).bind fun fg_path =>
      (selPath (d.fg_cf || decide (d.bg_choice ≠ "original")) (s.get? 3)).bind
        fun bg_path =>
      (selPath (decide (d.bg_choice = "hd") && d.rssn_denoise) (s.get? 4)).bind
        fun fgd_path =>
      (selPath (decide (d.bg_choice = "hd") && d.rssn_denoise) (s.get? 5)).bind
        fun bgd_path =>
      let ori0 := loadFn ori_path
      let mask := trim_img (loadFn mask_path)
      let fg0 := process_fgbg ori0 mask true (fg_path.map loadFn)
      let bg0 := process_fgbg ori0 mask false (bg_path.map loadFn)
      let comp : (NdBuf × NdBuf × NdBuf) × RState :=
        if d.bg_choice = "hd" then
          let fg_denoise := if d.rssn_denoise then
            some (process_fgbg ori0 mask true (fgd_path.map loadFn)) else none
          let bg_denoise := if d.rssn_denoise then
            some (process_fgbg ori0 mask true (bgd_path.map loadFn)) else none
          generate_composite_rssn resizeImgFn blurFn fg0 bg0
            (fun u v => mask.px u v 0) fg_denoise bg_denoise st
        else if d.bg_choice = "coco" then
          (generate_composite_coco resizeImgFn fg0 bg0 (fun u v => mask.px u v 0), st)
        else ((ori0, fg0, bg0), st)
      let ori1 := comp.1.1
      let fg1 := comp.1.2.1
      let bg1 := comp.1.2.2
      let st1 := comp.2
      let kernel_size := 25 + (drawInt st1).1 % 11
      let st2 := (drawInt st1).2
      let trimap : NdBuf := ⟨mask.h, mask.w, none, fun y x _ =>
        ((gen_trimap_with_dilate mask.h mask.w (fun u v => mask.px u v 0)
          kernel_size y x : Nat) : ℚ)⟩
      let dilation : NdBuf := ⟨mask.h, mask.w, none, fun y x _ =>
        ((gen_dilate mask.h mask.w (fun u v => mask.px u v 0)
          kernel_size y x : Nat) : ℚ)⟩
      let erosion : NdBuf := ⟨mask.h, mask.w, none, fun y x _ =>
        ((gen_erosion mask.h mask.w (fun u v => mask.px u v 0)
          kernel_size y x : Nat) : ℚ)⟩
      mattingTransform crops rs [ori1, mask, fg1, bg1, trimap, dilation, erosion] st2
    | _, _ => none

/-- `MattingDataset.__getitem__(index)`: the pipeline followed by the
channel-first tensor conversion and the seven-way destructuring.  The
dataset object — whose fields the method only reads — is returned
alongside the tensors to express the frame condition explicitly. -/
def MattingDataset_getitem (loadFn : String → NdBuf)
    (resizeImgFn : NdBuf → NdBuf → NdBuf) (blurFn : Nat → NdBuf → NdBuf)
    (crops : List Nat) (rs : Nat) (d : MattingDatasetS) (index : Nat)
    (st : RState) :
    Option ((Tensor3 × Tensor3 × Tensor3 × Tensor3 × Tensor3 × Tensor3 × Tensor3) ×
      MattingDatasetS × RState) :=
  match getitem_pipeline loadFn resizeImgFn blurFn crops rs d index st with
  | none => none
  | some (outs, st1) =>
    match tensorize outs with
    | none => none
    | some ts => some (ts, d, st1)

/-- C7: a successful `__getitem__` returns exactly seven tensors, the
channel-first conversions of the seven transformed buffers in order
(image, mask, foreground, background, trimap, dilation, erosion); the
conversion maps a 2-dimensional buffer to a `1 × H × W` single-channel
tensor and permutes a 3-dimensional buffer from `H × W × C` to
`C × H × W`. -/
theorem getitem_seven_channel_first (loadFn : String → NdBuf)
    (rf : NdBuf → NdBuf → NdBuf) (bf : Nat → NdBuf → NdBuf)
    (crops : List Nat) (rs : Nat) (d : MattingDatasetS) (index : Nat)
    (st : RState)
    (r : (Tensor3 × Tensor3 × Tensor3 × Tensor3 × Tensor3 × Tensor3 × Tensor3) ×
      MattingDatasetS × RState)
    (hrun : MattingDataset_getitem loadFn rf bf crops rs d index st = some r) :
    (∃ outs st1, getitem_pipeline loadFn rf bf crops rs d index st = some (outs, st1) ∧
      outs.length = 7 ∧
      r.1 = (toTensor (outs.getD 0 emptyBuf), toTensor (outs.getD 1 emptyBuf),
        toTensor (outs.getD 2 emptyBuf), toTensor (outs.getD 3 emptyBuf),
        toTensor (outs.getD 4 emptyBuf), toTensor (outs.getD 5 emptyBuf),
        toTensor (outs.getD 6 emptyBuf))) ∧
    (∀ b : NdBuf,
      (b.chan = none → (toTensor b).c = 1 ∧ (toTensor b).h = b.h ∧
        (toTensor b).w = b.w ∧ ∀ ch y x, (toTensor b).px ch y x = b.px y x 0) ∧
      (∀ c0, b.chan = some c0 → (toTensor b).c = c0 ∧ (toTensor b).h = b.h ∧
        (toTensor b).w = b.w ∧ ∀ ch y x, (toTensor b).px ch y x = b.px y x ch)) := by
  constructor
  · simp only [MattingDataset_getitem] at hrun
    cases hp : getitem_pipeline loadFn rf bf crops rs d index st with
    | none => rw [hp] at hrun; exact absurd hrun (by simp)
    | some q =>
      obtain ⟨outs, st1⟩ := q
      rw [hp] at hrun
      dsimp only at hrun
      cases ht : tensorize outs with
      | none => rw [ht] at hrun; exact absurd hrun (by simp)
      | some ts =>
        rw [ht] at hrun
        dsimp only at hrun
        injection hrun with h1
        rw [tensorize] at ht
        by_cases h7 : outs.length = 7
        · rw [if_pos h7] at ht
          injection ht with h2
          refine ⟨outs, st1, rfl, h7, ?_⟩
          rw [← h1]
          dsimp only
          exact h2.symm
        · rw [if_neg h7] at ht
          exact absurd ht (by simp)
  · intro b
    constructor
    · intro hc
      simp [toTensor, hc]
    · intro c0 hc
      simp [toTensor, hc]

/-- C10: `__getitem__` only reads the dataset fields: a successful access
returns the dataset object unchanged, in particular the samples list and
therefore `__len__`. -/
theorem getitem_frame (loadFn : String → NdBuf)
    (rf : NdBuf → NdBuf → NdBuf) (bf : Nat → NdBuf → NdBuf)
    (crops : List Nat) (rs : Nat) (d : MattingDatasetS) (index : Nat)
    (st : RState)
    (r : (Tensor3 × Tensor3 × Tensor3 × Tensor3 × Tensor3 × Tensor3 × Tensor3) ×
      MattingDatasetS × RState)
    (hrun : MattingDataset_getitem loadFn rf bf crops rs d index st = some r) :
    r.2.1 = d ∧ r.2.1.samples = d.samples ∧
    MattingDataset_len r.2.1 = MattingDataset_len d := by
  simp only [MattingDataset_getitem] at hrun
  cases hp : getitem_pipeline loadFn rf bf crops rs d index st with
  | none => rw [hp] at hrun; exact absurd hrun (by simp)
  | some q =>
    obtain ⟨outs, st1⟩ := q
    rw [hp] at hrun
    dsimp only at hrun
    cases ht : tensorize outs with
    | none => rw [ht] at hrun; exact absurd hrun (by simp)
    | some ts =>
      rw [ht] at hrun
      dsimp only at hrun
      injection hrun with h1
      rw [← h1]
      exact ⟨rfl, rfl, rfl⟩

/-- A one-sample dataset in the `original` background mode. -/
def dsSample : MattingDatasetS := ⟨[["o", "m"]], "original", "r34", false, false⟩

/-- A loader that returns the same 3×3×3 image for every path. -/
def constLoad : String → NdBuf := fun _ => oriSample

/-- Witness for C7: a concrete successful element access. -/
theorem getitem_seven_channel_first_witness :
    ∃ r, MattingDataset_getitem constLoad idResize idBlur [1] 1 dsSample 0
        stCoinsOne = some r ∧
      ∃ outs st1, getitem_pipeline constLoad idResize idBlur [1] 1 dsSample 0
          stCoinsOne = some (outs, st1) ∧ outs.length = 7 ∧
        r.1 = (toTensor (outs.getD 0 emptyBuf), toTensor (outs.getD 1 emptyBuf),
          toTensor (outs.getD 2 emptyBuf), toTensor (outs.getD 3 emptyBuf),
          toTensor (outs.getD 4 emptyBuf), toTensor (outs.getD 5 emptyBuf),
          toTensor (outs.getD 6 emptyBuf)) := by
  have hs : (MattingDataset_getitem constLoad idResize idBlur [1] 1 dsSample 0
      stCoinsOne).isSome = true := by decide
  rcases Option.isSome_iff_exists.mp hs with ⟨r, hr⟩
  exact ⟨r, hr, (getitem_seven_channel_first constLoad idResize idBlur [1] 1
    dsSample 0 stCoinsOne r hr).1⟩

/-- Witness for C10: the same concrete access leaves the dataset intact. -/
theorem getitem_frame_witness :
    ∃ r, MattingDataset_getitem constLoad idResize idBlur [1] 1 dsSample 0
        stCoinsZero = some r ∧ r.2.1 = dsSample := by
  have hs : (MattingDataset_getitem constLoad idResize idBlur [1] 1 dsSample 0
      stCoinsZero).isSome = true := by decide
  rcases Option.isSome_iff_exists.mp hs with ⟨r, hr⟩
  exact ⟨r, hr, (getitem_frame constLoad idResize idBlur [1] 1 dsSample 0
    stCoinsZero r hr).1⟩
